import Mathlib

/-!
Shallow embedding of the TalentFlow mock API layer (src/mocks/handlers.ts and
the Dexie tables of src/lib/db.ts), together with the optimistic-mutation /
rollback pattern of the React-Query pages (src/pages/JobsPage.tsx,
CandidateDetailPage).

Modelling conventions:
* The Dexie tables are lists of records; a table keyed by `id` is represented
  by a list whose `id` projection is duplicate-free.
* `crypto.randomUUID()` and `new Date().toISOString()` are environment inputs:
  handlers take the generated id(s) and the current clock value as parameters.
* `Math.random() < 0.075` (shouldSimulateError) is modelled by passing the
  drawn random sample explicitly; write handlers receive the resulting Bool.
* `simulateLatency` only suspends; it has no observable effect on the state
  transition of a handler and is not modelled.
-/

namespace TalentFlow

/-- Candidate pipeline stages (src/types, `CandidateStage`). -/
inductive CandidateStage where
  | applied | screen | tech | offer | hired | rejected
deriving DecidableEq, Repr

/-- Rendering of a stage used in template strings such as
`Moved from ${candidate.stage} to ${updates.stage}`. -/
def CandidateStage.toText : CandidateStage → String
  | .applied => "applied"
  | .screen => "screen"
  | .tech => "tech"
  | .offer => "offer"
  | .hired => "hired"
  | .rejected => "rejected"

/-- A row of the `jobs` table (`db.jobs`): primary key `id`, domain fields,
positional `order`, and generated timestamps. -/
structure Job where
  id : Nat
  title : String
  status : String
  tags : List String
  order : Int
  createdAt : Nat
  updatedAt : Nat
deriving DecidableEq, Repr

/-- A row of the `candidates` table (`db.candidates`). -/
structure Candidate where
  id : Nat
  name : String
  email : String
  jobId : Nat
  stage : CandidateStage
  appliedAt : Nat
  updatedAt : Nat
deriving DecidableEq, Repr

/-- Timeline event kinds written by the handlers. -/
inductive EventType where
  | stage_change | note
deriving DecidableEq, Repr

/-- A row of the `timeline` table (`db.timeline`).  `fromStage`/`toStage` are
optional JSON fields: the candidate-creation event carries no `fromStage`. -/
structure TimelineEvent where
  id : Nat
  candidateId : Nat
  type : EventType
  content : String
  fromStage : Option CandidateStage
  toStage : Option CandidateStage
  createdAt : Nat
deriving DecidableEq, Repr

/-- A row of the `notes` table (`db.notes`). -/
structure Note where
  id : Nat
  candidateId : Nat
  content : String
  createdAt : Nat
deriving DecidableEq, Repr

/-- A row of the `assessments` table (`db.assessments`). -/
structure Assessment where
  id : Nat
  jobId : Nat
  title : String
  createdAt : Nat
  updatedAt : Nat
deriving DecidableEq, Repr

/-- A row of the `assessmentResponses` table (`db.assessmentResponses`). -/
structure AssessmentResponse where
  id : Nat
  assessmentId : Nat
  candidateId : Nat
  answers : List (String × String)
  submittedAt : Nat
  completedAt : Nat
deriving DecidableEq, Repr

/-- The whole Dexie database (src/lib/db.ts, class `TalentFlowDB`). -/
structure Db where
  jobs : List Job
  candidates : List Candidate
  timeline : List TimelineEvent
  notes : List Note
  assessments : List Assessment
  assessmentResponses : List AssessmentResponse
deriving DecidableEq, Repr

/-- Outcome of a handler, as seen by the client: a success payload, the
injected 500 error of `shouldSimulateError`, or a 404. -/
inductive Res (α : Type) where
  | ok (data : α)
  | simulatedError (msg : String)
  | notFound (msg : String)
deriving DecidableEq, Repr

/-- Whether a response is the Transport Simulator's injected 500 failure. -/
def Res.isSimulatedError {α : Type} : Res α → Bool
  | .simulatedError _ => true
  | _ => false

/-- `const shouldSimulateError = () => Math.random() < 0.075` — the drawn
sample `r` (uniform on `[0,1)`) is passed explicitly. -/
def shouldSimulateError (r : ℚ) : Bool :=
  r < 75 / 1000

/-! ## PATCH /api/jobs/reorder (handlers.ts lines 101-138)

The handler snapshots the table (`db.jobs.orderBy('order').toArray()`), finds
the job whose `order` equals `fromOrder`, then issues a sequence of
`db.jobs.update(id, { order: v })` calls keyed by primary key.  We record that
sequence of field writes explicitly (each element `(id, v)` is one
`updateField` call) and apply them in emission order.  `orderBy('order')` only
fixes the iteration order of the loop; since every write is keyed by a
distinct `id`, iteration order does not affect the final table, and under a
duplicate-free `order` column it does not affect which job `find` returns
either, so the snapshot is kept in table order. -/

/-- `db.jobs.update(i, { order: v })`: update the `order` field of the job(s)
with primary key `i`. -/
def dbUpdateJobOrder (jobs : List Job) (i : Nat) (v : Int) : List Job :=
  jobs.map fun j => if j.id = i then { j with order := v } else j

/-- Apply a sequence of `order`-field writes in order. -/
def applyOrderWrites (jobs : List Job) (ws : List (Nat × Int)) : List Job :=
  ws.foldl (fun acc w => dbUpdateJobOrder acc w.1 w.2) jobs

/-- The writes emitted by the two shift loops of the reorder handler:
`fromOrder < toOrder` decrements every job with `order` in
`(fromOrder, toOrder]`; otherwise (including `fromOrder == toOrder`) the
second loop increments every job with `order` in `[toOrder, fromOrder)`. -/
def reorderShiftWrites (snapshot : List Job) (fromOrder toOrder : Int) :
    List (Nat × Int) :=
  if fromOrder < toOrder then
    (snapshot.filter fun j =>
      decide (fromOrder < j.order) && decide (j.order ≤ toOrder)).map
      fun j => (j.id, j.order - 1)
  else
    (snapshot.filter fun j =>
      decide (toOrder ≤ j.order) && decide (j.order < fromOrder)).map
      fun j => (j.id, j.order + 1)

/-- Result of the reorder handler: the table after the handler ran, the
`updateField` calls it issued, and the HTTP response. -/
structure ReorderResult where
  jobs : List Job
  writes : List (Nat × Int)
  resp : Res Bool
deriving DecidableEq, Repr

/-- `http.patch('/api/jobs/reorder', ...)`.  `err` is the outcome of
`shouldSimulateError()`; on `err` the handler answers 500 before touching the
store.  Then: find the job with `order == fromOrder` (404 if absent), emit the
shift writes, and finally write the moved job's order to `toOrder`. -/
def reorderJobsHandler (err : Bool) (jobs : List Job) (fromOrder toOrder : Int) :
    ReorderResult :=
  if err then
    ⟨jobs, [], .simulatedError "Failed to reorder jobs. Please try again."⟩
  else
    match jobs.find? (fun j => j.order == fromOrder) with
    | none => ⟨jobs, [], .notFound "Job not found"⟩
    | some job =>
      let ws := reorderShiftWrites jobs fromOrder toOrder ++ [(job.id, toOrder)]
      ⟨applyOrderWrites jobs ws, ws, .ok true⟩

/-- The net effect of a committed reorder on one order value, as described in
the spec: the moved member goes to `toOrder`, members strictly between shift
by one towards the vacated slot, everything else is fixed. -/
def reindexOrder (fromOrder toOrder o : Int) : Int :=
  if o = fromOrder then toOrder
  else if fromOrder < toOrder ∧ fromOrder < o ∧ o ≤ toOrder then o - 1
  else if toOrder < fromOrder ∧ toOrder ≤ o ∧ o < fromOrder then o + 1
  else o

/-- The order column is exactly `{0, …, N-1}`: duplicate-free, inside the
range, and hitting every value of the range. -/
def ordersExactlyRange (jobs : List Job) (N : Nat) : Prop :=
  (jobs.map Job.order).Nodup ∧
  (∀ j ∈ jobs, 0 ≤ j.order ∧ j.order < (N : Int)) ∧
  (∀ k : Nat, k < N → (k : Int) ∈ jobs.map Job.order)

instance (jobs : List Job) (N : Nat) : Decidable (ordersExactlyRange jobs N) := by
  unfold ordersExactlyRange
  infer_instance

/-! ## The remaining handlers of src/mocks/handlers.ts

Handlers that call `shouldSimulateError()` take its Bool outcome `err` as
their first argument; generated ids (`crypto.randomUUID()`) and the clock
(`new Date().toISOString()`) are passed as parameters. -/

/-- Shape of a list response body.  A JSON object simply omits the fields the
handler does not set, hence the `Option` fields. -/
structure ListResponse (α : Type) where
  data : List α
  total : Option Nat
  page : Option Nat
  pageSize : Option Nat
deriving DecidableEq, Repr

instance {α : Type} : Inhabited (ListResponse α) := ⟨⟨[], none, none, none⟩⟩

/-- Payload of a successful response, used to state shape facts about
endpoints that always answer 200. -/
def Res.getOk {α : Type} [Inhabited α] : Res α → α
  | .ok a => a
  | _ => default

/-- Insert into an already sorted list (helper of `sortBy`). -/
def insertSorted {α : Type} (le : α → α → Bool) (a : α) : List α → List α
  | [] => [a]
  | b :: l => if le a b then a :: b :: l else b :: insertSorted le a l

/-- Insertion sort, used to model the sorted reads (`orderBy`, `sortBy`,
`Array.prototype.sort`); only sortedness matters to the handlers. -/
def sortBy {α : Type} (le : α → α → Bool) : List α → List α
  | [] => []
  | a :: l => insertSorted le a (sortBy le l)

/-- `db.jobs.orderBy('order').toArray()`. -/
def sortByOrder (jobs : List Job) : List Job :=
  sortBy (fun a b => decide (a.order ≤ b.order)) jobs

/-- GET `/api/jobs` (lines 13-44): sort by order, filter by `status` and by
comma-separated `tags` (case-insensitive overlap), then paginate with
`slice(start, start + pageSize)`; `page`/`pageSize` arrive already parsed
with their defaults 1 and 20. -/
def listJobsHandler (db : Db) (status : Option String) (tags : Option String)
    (page pageSize : Nat) : Res (ListResponse Job) :=
  let jobs0 := sortByOrder db.jobs
  let jobs1 : List Job := match status with
    | some s => jobs0.filter fun j => j.status == s
    | none => jobs0
  let jobs2 : List Job := match tags with
    | some ts =>
      let tagArray := (ts.splitOn ",").map fun t => t.trim.toLower
      jobs1.filter fun j => j.tags.any fun tag => tagArray.contains tag.toLower
    | none => jobs1
  let start := (page - 1) * pageSize
  .ok ⟨(jobs2.drop start).take pageSize, some jobs2.length, some page,
    some pageSize⟩

/-- GET `/api/jobs/:id` (lines 46-55). -/
def getJobHandler (db : Db) (id : Nat) : Res Job :=
  match db.jobs.find? (fun j => j.id == id) with
  | none => .notFound "Job not found"
  | some job => .ok job

/-- Client-supplied fields of a job creation request. -/
structure JobBody where
  title : String
  status : String
  tags : List String
  order : Int
deriving DecidableEq, Repr

/-- POST `/api/jobs` (lines 57-77): `{...body, id, createdAt, updatedAt}`,
then `db.jobs.add(job)`. -/
def createJobHandler (err : Bool) (db : Db) (body : JobBody)
    (newId : Nat) (now : Nat) : Db × Res Job :=
  if err then (db, .simulatedError "Failed to create job. Please try again.")
  else
    let job : Job := ⟨newId, body.title, body.status, body.tags, body.order,
      now, now⟩
    ({ db with jobs := db.jobs ++ [job] }, .ok job)

/-- Partial-update body of PATCH `/api/jobs/:id`; absent JSON keys are
`none`. -/
structure JobUpdates where
  title : Option String
  status : Option String
  tags : Option (List String)
  order : Option Int
deriving DecidableEq, Repr

/-- Spread of a partial update over a job, plus the regenerated
`updatedAt`. -/
def applyJobUpdates (u : JobUpdates) (now : Nat) (j : Job) : Job :=
  { j with
    title := u.title.getD j.title
    status := u.status.getD j.status
    tags := u.tags.getD j.tags
    order := u.order.getD j.order
    updatedAt := now }

/-- PATCH `/api/jobs/:id` (lines 79-99): `db.jobs.update(id, {...updates,
updatedAt})` followed by `db.jobs.get(id)`; the response carries whatever
`get` returned (possibly `undefined`). -/
def updateJobHandler (err : Bool) (db : Db) (id : Nat) (u : JobUpdates)
    (now : Nat) : Db × Res (Option Job) :=
  if err then (db, .simulatedError "Failed to update job. Please try again.")
  else
    let jobs1 := db.jobs.map fun j =>
      if j.id = id then applyJobUpdates u now j else j
    ({ db with jobs := jobs1 }, .ok (jobs1.find? fun j => j.id == id))

/-- GET `/api/candidates/search` (lines 141-163): filter by stage, sort by
`appliedAt` most recent first; `page` is parsed but never used, and the
response carries only `data` and `total`. -/
def searchCandidatesHandler (db : Db) (stage : Option CandidateStage)
    (page : Nat) : Res (ListResponse Candidate) :=
  let cands1 : List Candidate := match stage with
    | some s => db.candidates.filter fun c => c.stage == s
    | none => db.candidates
  let sorted := sortBy (fun a b => decide (b.appliedAt ≤ a.appliedAt)) cands1
  .ok ⟨sorted, some sorted.length, none, none⟩

/-- GET `/api/candidates/:id` (lines 165-174). -/
def getCandidateHandler (db : Db) (id : Nat) : Res Candidate :=
  match db.candidates.find? (fun c => c.id == id) with
  | none => .notFound "Candidate not found"
  | some c => .ok c

/-- GET `/api/candidates/:id/timeline` (lines 176-185):
`where('candidateId').equals(id).reverse().sortBy('createdAt')`, i.e. the
candidate's events most recent first; only `data` in the response. -/
def getTimelineHandler (db : Db) (id : Nat) : Res (ListResponse TimelineEvent) :=
  let events := sortBy (fun a b => decide (b.createdAt ≤ a.createdAt))
    (db.timeline.filter fun e => e.candidateId == id)
  .ok ⟨events, none, none, none⟩

/-- Partial-update body of PATCH `/api/candidates/:id`; the pages only ever
send `{ stage }`. -/
structure CandidateUpdates where
  stage : Option CandidateStage
deriving DecidableEq, Repr

/-- Spread of a partial update over a candidate, plus the regenerated
`updatedAt`. -/
def applyCandidateUpdates (u : CandidateUpdates) (now : Nat) (c : Candidate) :
    Candidate :=
  { c with
    stage := u.stage.getD c.stage
    updatedAt := now }

/-- PATCH `/api/candidates/:id` (lines 187-225): 404 when absent; when the
update carries a stage different from the current one, append a
`stage_change` timeline event first; then write the update and respond with
the re-read candidate. -/
def updateCandidateHandler (err : Bool) (db : Db) (id : Nat)
    (u : CandidateUpdates) (newEventId : Nat) (now : Nat) :
    Db × Res (Option Candidate) :=
  if err then
    (db, .simulatedError "Failed to update candidate. Please try again.")
  else
    match db.candidates.find? (fun c => c.id == id) with
    | none => (db, .notFound "Candidate not found")
    | some candidate =>
      let db1 : Db :=
        match u.stage with
        | some s =>
          if s ≠ candidate.stage then
            { db with timeline := db.timeline ++
              [⟨newEventId, id, .stage_change,
                "Moved from " ++ candidate.stage.toText ++ " to " ++ s.toText,
                some candidate.stage, some s, now⟩] }
          else db
        | none => db
      let cands1 := db1.candidates.map fun c =>
        if c.id = id then applyCandidateUpdates u now c else c
      ({ db1 with candidates := cands1 },
        .ok (cands1.find? fun c => c.id == id))

/-- Client-supplied fields of a candidate creation request; a `stage` value
may be supplied but the handler overrides it. -/
structure CandidateBody where
  name : String
  email : String
  jobId : Nat
  stage : CandidateStage
deriving DecidableEq, Repr

/-- POST `/api/candidates` (lines 227-259): `{...body, id, stage: 'applied',
appliedAt, updatedAt}`, then an `Application submitted` timeline event. -/
def createCandidateHandler (err : Bool) (db : Db) (body : CandidateBody)
    (newId newEventId : Nat) (now : Nat) : Db × Res Candidate :=
  if err then
    (db, .simulatedError "Failed to create candidate. Please try again.")
  else
    let candidate : Candidate :=
      ⟨newId, body.name, body.email, body.jobId, .applied, now, now⟩
    let db1 := { db with candidates := db.candidates ++ [candidate] }
    let db2 := { db1 with timeline := db1.timeline ++
      [⟨newEventId, newId, .stage_change, "Application submitted", none,
        some .applied, now⟩] }
    (db2, .ok candidate)

/-- GET `/api/assessments/job/:jobId` (lines 262-270); only `data` in the
response. -/
def getAssessmentsByJobHandler (db : Db) (jobId : Nat) :
    Res (ListResponse Assessment) :=
  .ok ⟨db.assessments.filter fun a => a.jobId == jobId, none, none, none⟩

/-- GET `/api/assessments/:id` (lines 272-281). -/
def getAssessmentHandler (db : Db) (id : Nat) : Res Assessment :=
  match db.assessments.find? (fun a => a.id == id) with
  | none => .notFound "Assessment not found"
  | some a => .ok a

/-- Client-supplied fields of an assessment creation request. -/
structure AssessmentBody where
  jobId : Nat
  title : String
deriving DecidableEq, Repr

/-- POST `/api/assessments` (lines 283-303). -/
def createAssessmentHandler (err : Bool) (db : Db) (body : AssessmentBody)
    (newId : Nat) (now : Nat) : Db × Res Assessment :=
  if err then
    (db, .simulatedError "Failed to create assessment. Please try again.")
  else
    let a : Assessment := ⟨newId, body.jobId, body.title, now, now⟩
    ({ db with assessments := db.assessments ++ [a] }, .ok a)

/-- Partial-update body of PUT `/api/assessments/:id`. -/
structure AssessmentUpdates where
  jobId : Option Nat
  title : Option String
deriving DecidableEq, Repr

/-- Spread of a partial update over an assessment record. -/
def applyAssessmentUpdates (u : AssessmentUpdates) (now : Nat)
    (a : Assessment) : Assessment :=
  { a with
    jobId := u.jobId.getD a.jobId
    title := u.title.getD a.title
    updatedAt := now }

/-- PUT `/api/assessments/:id` (lines 305-325). -/
def updateAssessmentHandler (err : Bool) (db : Db) (id : Nat)
    (u : AssessmentUpdates) (now : Nat) : Db × Res (Option Assessment) :=
  if err then
    (db, .simulatedError "Failed to update assessment. Please try again.")
  else
    let as1 := db.assessments.map fun a =>
      if a.id = id then applyAssessmentUpdates u now a else a
    ({ db with assessments := as1 }, .ok (as1.find? fun a => a.id == id))

/-- Body of POST `/api/assessments/job/:jobId/submit`. -/
structure SubmitBody where
  assessmentId : Nat
  candidateId : Nat
  answers : List (String × String)
deriving DecidableEq, Repr

/-- POST `/api/assessments/job/:jobId/submit` (lines 327-349). -/
def submitAssessmentHandler (err : Bool) (db : Db) (body : SubmitBody)
    (newId : Nat) (now : Nat) : Db × Res AssessmentResponse :=
  if err then
    (db, .simulatedError "Failed to submit assessment. Please try again.")
  else
    let resp : AssessmentResponse :=
      ⟨newId, body.assessmentId, body.candidateId, body.answers, now, now⟩
    ({ db with assessmentResponses := db.assessmentResponses ++ [resp] },
      .ok resp)

/-- Body of POST `/api/notes`. -/
structure NoteBody where
  candidateId : Nat
  content : String
deriving DecidableEq, Repr

/-- POST `/api/notes` (lines 352-381): store the note and append a `note`
timeline event whose content is truncated to 100 characters with an
ellipsis. -/
def createNoteHandler (err : Bool) (db : Db) (body : NoteBody)
    (newNoteId newEventId : Nat) (now : Nat) : Db × Res Note :=
  if err then
    (db, .simulatedError "Failed to create note. Please try again.")
  else
    let note : Note := ⟨newNoteId, body.candidateId, body.content, now⟩
    let db1 := { db with notes := db.notes ++ [note] }
    let preview := body.content.take 100 ++
      (if body.content.length > 100 then "..." else "")
    let db2 := { db1 with timeline := db1.timeline ++
      [⟨newEventId, body.candidateId, .note, preview, none, none, now⟩] }
    (db2, .ok note)

/-- GET `/api/notes/:candidateId` (lines 383-392): the candidate's notes most
recent first; only `data` in the response. -/
def getNotesHandler (db : Db) (candidateId : Nat) : Res (ListResponse Note) :=
  .ok ⟨sortBy (fun a b => decide (b.createdAt ≤ a.createdAt))
    (db.notes.filter fun n => n.candidateId == candidateId), none, none, none⟩

/-! ## The optimistic-mutation pattern of the pages

`useMutation` with `onMutate`/`onError` as written in `JobsPage.tsx`
(archiveMutation) and `CandidateDetailPage` (stageMutation): `onMutate`
snapshots `getQueryData(key)` and writes the optimistic transform with
`setQueryData`; on transport failure `onError` writes the snapshot back and
surfaces the error; on success the optimistic value stays (followed by an
`invalidateQueries` refetch, outside this model).  The transport outcome of
`mutationFn` is passed explicitly, and exactly one transport attempt is
consumed per mutation — the hooks configure no retry. -/

/-- The query cache restricted to one key family: a partial map from keys to
cached payloads.  Other key families are untouched by these mutations. -/
def Cache (κ : Type) (α : Type) := κ → Option α

/-- `queryClient.setQueryData(k, v)`, modelled as plain assignment. -/
def cacheSet {κ α : Type} [DecidableEq κ] (c : Cache κ α) (k : κ)
    (v : Option α) : Cache κ α :=
  fun k' => if k' = k then v else c k'

/-- How a mutation settled, as surfaced to the caller. -/
inductive MutationOutcome (ε : Type) where
  | committed
  | rolledBack (e : ε)
deriving DecidableEq, Repr

/-- One optimistic mutation: snapshot, optimistic apply, then commit or
rollback according to the single transport outcome. -/
def runOptimisticMutation {κ α ε : Type} [DecidableEq κ] (cache : Cache κ α)
    (key : κ) (transform : Option α → Option α) (outcome : Except ε Unit) :
    Cache κ α × MutationOutcome ε :=
  let snapshot := cache key
  let optimistic := cacheSet cache key (transform (cache key))
  match outcome with
  | .error e => (cacheSet optimistic key snapshot, .rolledBack e)
  | .ok _ => (optimistic, .committed)

/-- `archiveMutation.onMutate`'s transform on the `['jobs', activeTab]`
entry: `(old) => ({...old, data: old?.data?.filter(job => job.id !== id) ||
[]})`.  When no entry exists, the spread of `undefined` yields an object
holding only `data`. -/
def archiveTransform (id : Nat) (old : Option (ListResponse Job)) :
    Option (ListResponse Job) :=
  match old with
  | some o => some { o with data := o.data.filter fun job => !(job.id == id) }
  | none => some ⟨[], none, none, none⟩

/-- `archiveMutation` of `JobsPage` against the `['jobs', activeTab]` cache
entry; the key is the `activeTab` string. -/
def runArchiveMutation (cache : Cache String (ListResponse Job))
    (activeTab : String) (id : Nat) (outcome : Except String Unit) :
    Cache String (ListResponse Job) × MutationOutcome String :=
  runOptimisticMutation cache activeTab (archiveTransform id) outcome

/-- Cached payload of `candidatesApi.getById`: `{ data: candidate }`. -/
structure CandidateDetail where
  data : Candidate
deriving DecidableEq, Repr

/-- `stageMutation.onMutate`'s transform on the `['candidate', id]` entry:
`(old) => ({...old, data: {...old?.data, stage: newStage}})`.  The page only
renders the stage buttons once the entry exists, so the `none` branch (a JS
spread of `undefined`) is unreachable in practice; its placeholder fields do
not matter for the rollback result. -/
def stageTransform (newStage : CandidateStage) (old : Option CandidateDetail) :
    Option CandidateDetail :=
  match old with
  | some o => some ⟨{ o.data with stage := newStage }⟩
  | none => some ⟨⟨0, "", "", 0, newStage, 0, 0⟩⟩

/-- `stageMutation` of `CandidateDetailPage` against the `['candidate', id]`
cache entry; the key is the candidate id. -/
def runStageMutation (cache : Cache Nat CandidateDetail) (id : Nat)
    (newStage : CandidateStage) (outcome : Except String Unit) :
    Cache Nat CandidateDetail × MutationOutcome String :=
  runOptimisticMutation cache id (stageTransform newStage) outcome

/-! ## A committed sequence of reorders -/

/-- `CommitSeq db ops final`: each reorder in `ops` runs in turn with no
injected failure, answers `{ success: true }`, and `final` is the table left
behind. -/
inductive CommitSeq : List Job → List (Int × Int) → List Job → Prop where
  | nil (db : List Job) : CommitSeq db [] db
  | cons (db : List Job) (op : Int × Int) (ops : List (Int × Int))
      (final : List Job)
      (hresp : (reorderJobsHandler false db op.1 op.2).resp = .ok true)
      (hrest : CommitSeq (reorderJobsHandler false db op.1 op.2).jobs ops final) :
      CommitSeq db (op :: ops) final

/-! ## Concrete fixtures used by witnesses and counterexamples -/

/-- A job literal with the given id and order. -/
def wJob (i : Nat) (o : Int) : Job := ⟨i, "Job", "active", [], o, 0, 0⟩

/-- Two jobs densely ordered 0, 1. -/
def twoJobs : List Job := [wJob 0 0, wJob 1 1]

/-- Three jobs densely ordered 0, 1, 2. -/
def threeJobs : List Job := [wJob 0 0, wJob 1 1, wJob 2 2]

/-- Ten jobs densely ordered 0–9. -/
def tenJobs : List Job := (List.range 10).map fun i => wJob i (i : Int)

/-- An empty database. -/
def emptyDb : Db := ⟨[], [], [], [], [], []⟩

/-- A candidate in stage `applied`. -/
def wCand : Candidate := ⟨0, "Ada", "ada@example.com", 7, .applied, 0, 0⟩

/-- A database holding only `wCand`. -/
def dbWithCand : Db := ⟨[], [wCand], [], [], [], []⟩

/-- A candidate-creation body that supplies the stage `tech`. -/
def cexCandBody : CandidateBody := ⟨"Bob", "bob@example.com", 3, .tech⟩

/-! ### The effect of a write sequence on a single record -/

/-- Effect of one keyed write on one record. -/
def recApplyWrite (w : Nat × Int) (j : Job) : Job :=
  if j.id = w.1 then { j with order := w.2 } else j

/-- Effect of a write sequence on one record. -/
def recApplyWrites (ws : List (Nat × Int)) (j : Job) : Job :=
  ws.foldl (fun jj w => recApplyWrite w jj) j

theorem recApplyWrite_id (w : Nat × Int) (j : Job) :
    (recApplyWrite w j).id = j.id := by
  unfold recApplyWrite
  split <;> rfl

theorem recApplyWrites_id (ws : List (Nat × Int)) (j : Job) :
    (recApplyWrites ws j).id = j.id := by
  induction ws generalizing j with
  | nil => rfl
  | cons w ws ih =>
    rw [recApplyWrites, List.foldl_cons, ← recApplyWrites, ih,
      recApplyWrite_id]

theorem recApplyWrites_append (a b : List (Nat × Int)) (j : Job) :
    recApplyWrites (a ++ b) j = recApplyWrites b (recApplyWrites a j) := by
  unfold recApplyWrites
  rw [List.foldl_append]

theorem recApplyWrites_of_no_match (ws : List (Nat × Int)) (j : Job)
    (h : ∀ w ∈ ws, w.1 ≠ j.id) : recApplyWrites ws j = j := by
  induction ws with
  | nil => rfl
  | cons w ws ih =>
    rw [recApplyWrites, List.foldl_cons, ← recApplyWrites]
    have hw : recApplyWrite w j = j := by
      unfold recApplyWrite
      rw [if_neg]
      exact fun hj => h w (List.mem_cons_self w ws) hj.symm
    rw [hw]
    exact ih fun w' hw' => h w' (List.mem_cons_of_mem w hw')

/-- Updating the table record-by-record is the same as mapping the per-record
effect of the whole write sequence over the table. -/
theorem applyOrderWrites_eq_map (ws : List (Nat × Int)) (jobs : List Job) :
    applyOrderWrites jobs ws = jobs.map (recApplyWrites ws) := by
  induction ws generalizing jobs with
  | nil =>
    exact (List.map_id' jobs).symm
  | cons w ws ih =>
    have h1 : applyOrderWrites jobs (w :: ws)
        = applyOrderWrites (dbUpdateJobOrder jobs w.1 w.2) ws := rfl
    rw [h1, ih, dbUpdateJobOrder, List.map_map]
    apply List.map_congr_left
    intro j _
    rfl

/-- Members of a table with a duplicate-free `id` column are determined by
their `id`. -/
theorem mem_id_inj {jobs : List Job} (hid : (jobs.map Job.id).Nodup)
    {a b : Job} (ha : a ∈ jobs) (hb : b ∈ jobs) (h : a.id = b.id) : a = b :=
  List.inj_on_of_nodup_map hid ha hb h

/-- Members of a table with a duplicate-free `order` column are determined by
their `order`. -/
theorem mem_order_inj {jobs : List Job} (hord : (jobs.map Job.order).Nodup)
    {a b : Job} (ha : a ∈ jobs) (hb : b ∈ jobs) (h : a.order = b.order) :
    a = b :=
  List.inj_on_of_nodup_map hord ha hb h

/-- Applying the writes `(x.id, val x)` for the filtered jobs `x` to a member
`j` of a table with duplicate-free ids updates `j` exactly when `j` passes the
filter. -/
theorem recApplyWrites_filter_map (cond : Job → Bool) (val : Job → Int)
    (jobs : List Job) (hid : (jobs.map Job.id).Nodup)
    (j : Job) (hj : j ∈ jobs) :
    recApplyWrites ((jobs.filter cond).map fun x => (x.id, val x)) j
      = if cond j then { j with order := val j } else j := by
  have hnodup : jobs.Nodup := hid.of_map
  have idne : ∀ x ∈ jobs, x ≠ j → x.id ≠ j.id := fun x hx hne heq =>
    hne (mem_id_inj hid hx hj heq)
  by_cases hc : cond j
  · rw [if_pos hc]
    have hjf : j ∈ jobs.filter cond := List.mem_filter.mpr ⟨hj, hc⟩
    obtain ⟨s, t, hst⟩ := List.append_of_mem hjf
    have hnf : (jobs.filter cond).Nodup := (List.filter_sublist jobs).nodup hnodup
    rw [hst, List.nodup_append] at hnf
    have hjs : j ∉ s := fun h => hnf.2.2 h (List.mem_cons_self _ _)
    have hjt : j ∉ t := (List.nodup_cons.mp hnf.2.1).1
    have hsub : ∀ x ∈ jobs.filter cond, x ∈ jobs := fun x hx =>
      (List.mem_filter.mp hx).1
    rw [hst, List.map_append, List.map_cons, recApplyWrites_append]
    have h1 : recApplyWrites (s.map fun x => (x.id, val x)) j = j := by
      apply recApplyWrites_of_no_match
      intro w hw
      obtain ⟨x, hxs, rfl⟩ := List.mem_map.mp hw
      have hxmem : x ∈ jobs := by
        apply hsub
        rw [hst]
        exact List.mem_append_left _ hxs
      exact idne x hxmem fun h => hjs (h ▸ hxs)
    rw [h1]
    have h2 : recApplyWrites ((j.id, val j) :: t.map fun x => (x.id, val x)) j
        = recApplyWrites (t.map fun x => (x.id, val x))
            { j with order := val j } := by
      show recApplyWrites (t.map _) (recApplyWrite (j.id, val j) j) = _
      congr 1
      unfold recApplyWrite
      rw [if_pos rfl]
    rw [h2]
    apply recApplyWrites_of_no_match
    intro w hw
    obtain ⟨x, hxt, rfl⟩ := List.mem_map.mp hw
    have hxmem : x ∈ jobs := by
      apply hsub
      rw [hst]
      exact List.mem_append_right _ (List.mem_cons_of_mem _ hxt)
    exact idne x hxmem fun h => hjt (h ▸ hxt)
  · rw [if_neg hc]
    apply recApplyWrites_of_no_match
    intro w hw
    obtain ⟨x, hxf, rfl⟩ := List.mem_map.mp hw
    have hxj : x ≠ j := fun h => hc (h ▸ (List.mem_filter.mp hxf).2)
    exact idne x (List.mem_filter.mp hxf).1 hxj

theorem reindex_eq_moved {fromOrder toOrder o : Int} (h : o = fromOrder) :
    reindexOrder fromOrder toOrder o = toOrder := by
  unfold reindexOrder
  split_ifs
  omega

theorem reindex_eq_down {fromOrder toOrder o : Int} (h1 : fromOrder < toOrder)
    (h2 : fromOrder < o) (h3 : o ≤ toOrder) :
    reindexOrder fromOrder toOrder o = o - 1 := by
  unfold reindexOrder
  split_ifs <;> omega

theorem reindex_eq_up {fromOrder toOrder o : Int} (h1 : toOrder < fromOrder)
    (h2 : toOrder ≤ o) (h3 : o < fromOrder) :
    reindexOrder fromOrder toOrder o = o + 1 := by
  unfold reindexOrder
  split_ifs <;> omega

theorem reindex_eq_fix {fromOrder toOrder o : Int} (h0 : o ≠ fromOrder)
    (h1 : ¬(fromOrder < toOrder ∧ fromOrder < o ∧ o ≤ toOrder))
    (h2 : ¬(toOrder < fromOrder ∧ toOrder ≤ o ∧ o < fromOrder)) :
    reindexOrder fromOrder toOrder o = o := by
  unfold reindexOrder
  split_ifs <;> omega

/-- The whole write sequence of a committed reorder moves every member's
order by `reindexOrder`. -/
theorem recApply_reorder (jobs : List Job) (fromOrder toOrder : Int)
    (hid : (jobs.map Job.id).Nodup) (hord : (jobs.map Job.order).Nodup)
    (j0 : Job) (hj0 : j0 ∈ jobs) (hj0ord : j0.order = fromOrder)
    (j : Job) (hj : j ∈ jobs) :
    recApplyWrites
        (reorderShiftWrites jobs fromOrder toOrder ++ [(j0.id, toOrder)]) j
      = { j with order := reindexOrder fromOrder toOrder j.order } := by
  rw [recApplyWrites_append]
  by_cases hjf : j.order = fromOrder
  · -- the moved record: untouched by the shift loop, then written to toOrder
    have hjj0 : j = j0 := mem_order_inj hord hj hj0 (by rw [hjf, hj0ord])
    have h1 : recApplyWrites (reorderShiftWrites jobs fromOrder toOrder) j
        = j := by
      unfold reorderShiftWrites
      split_ifs with hlt
      · rw [recApplyWrites_filter_map _ _ jobs hid j hj, if_neg]
        simp only [Bool.and_eq_true, decide_eq_true_eq, not_and]
        intro h
        omega
      · rw [recApplyWrites_filter_map _ _ jobs hid j hj, if_neg]
        simp only [Bool.and_eq_true, decide_eq_true_eq, not_and]
        intro h
        omega
    rw [h1]
    show recApplyWrite (j0.id, toOrder) j = _
    unfold recApplyWrite
    rw [if_pos (by rw [hjj0]), reindex_eq_moved hjf]
  · -- any other record: possibly shifted, never hit by the final write
    have hne0 : j.id ≠ j0.id := fun h =>
      hjf (by rw [mem_id_inj hid hj hj0 h, hj0ord])
    have hfinal : ∀ x : Job, x.id = j.id →
        recApplyWrites [(j0.id, toOrder)] x = x := by
      intro x hx
      apply recApplyWrites_of_no_match
      intro w hw
      rw [List.mem_singleton] at hw
      rw [hw, hx]
      exact fun h => hne0 h.symm
    unfold reorderShiftWrites
    split_ifs with hlt
    · rw [recApplyWrites_filter_map _ _ jobs hid j hj]
      by_cases hin : fromOrder < j.order ∧ j.order ≤ toOrder
      · rw [if_pos (by simp only [Bool.and_eq_true, decide_eq_true_eq]; exact hin),
          hfinal { j with order := j.order - 1 } rfl,
          reindex_eq_down hlt hin.1 hin.2]
      · rw [if_neg (by simp only [Bool.and_eq_true, decide_eq_true_eq]; exact hin),
          hfinal j rfl, reindex_eq_fix hjf (by omega) (by omega)]
    · rw [recApplyWrites_filter_map _ _ jobs hid j hj]
      by_cases hin : toOrder ≤ j.order ∧ j.order < fromOrder
      · rw [if_pos (by simp only [Bool.and_eq_true, decide_eq_true_eq]; exact hin),
          hfinal { j with order := j.order + 1 } rfl,
          reindex_eq_up (by omega) hin.1 hin.2]
      · rw [if_neg (by simp only [Bool.and_eq_true, decide_eq_true_eq]; exact hin),
          hfinal j rfl, reindex_eq_fix hjf (by omega) (by omega)]

/-- A committed reorder rewrites every member's order by `reindexOrder` and
answers `{ success: true }`. -/
theorem reorderJobsHandler_spec (jobs : List Job) (fromOrder toOrder : Int)
    (hid : (jobs.map Job.id).Nodup) (hord : (jobs.map Job.order).Nodup)
    (j0 : Job) (hfind : jobs.find? (fun j => j.order == fromOrder) = some j0) :
    reorderJobsHandler false jobs fromOrder toOrder =
      ⟨jobs.map fun j =>
          { j with order := reindexOrder fromOrder toOrder j.order },
        reorderShiftWrites jobs fromOrder toOrder ++ [(j0.id, toOrder)],
        .ok true⟩ := by
  have hj0 : j0 ∈ jobs := List.mem_of_find?_eq_some hfind
  have hj0ord : j0.order = fromOrder := by
    have := List.find?_some hfind
    simpa using this
  unfold reorderJobsHandler
  rw [if_neg Bool.false_ne_true, hfind]
  show (⟨applyOrderWrites jobs
          (reorderShiftWrites jobs fromOrder toOrder ++ [(j0.id, toOrder)]),
        reorderShiftWrites jobs fromOrder toOrder ++ [(j0.id, toOrder)],
        Res.ok true⟩ : ReorderResult) = _
  rw [applyOrderWrites_eq_map]
  congr 1
  apply List.map_congr_left
  intro j hj
  exact recApply_reorder jobs fromOrder toOrder hid hord j0 hj0 hj0ord j hj

/-- `jobs.find(j => j.order === fromOrder)` succeeds as soon as some member
has that order. -/
theorem find?_order_eq_some {jobs : List Job} {fromOrder : Int}
    (h : ∃ j ∈ jobs, j.order = fromOrder) :
    ∃ j0, jobs.find? (fun j => j.order == fromOrder) = some j0 := by
  cases hf : jobs.find? (fun j => j.order == fromOrder) with
  | some j0 => exact ⟨j0, rfl⟩
  | none =>
    obtain ⟨j, hj, hjord⟩ := h
    have := List.find?_eq_none.mp hf j hj
    simp [hjord] at this

/-- On a dense table, `find` succeeds for every in-range `fromOrder`. -/
theorem dense_find {jobs : List Job} {N : Nat} {fromOrder : Int}
    (hex : ordersExactlyRange jobs N)
    (hf : 0 ≤ fromOrder ∧ fromOrder < (N : Int)) :
    ∃ j0, jobs.find? (fun j => j.order == fromOrder) = some j0 := by
  obtain ⟨hord, hbound, hsurj⟩ := hex
  apply find?_order_eq_some
  have hk : fromOrder.toNat < N := by omega
  have hmm := hsurj fromOrder.toNat hk
  rw [List.mem_map] at hmm
  obtain ⟨j, hj, hjo⟩ := hmm
  exact ⟨j, hj, by omega⟩

/-- Moving a member onto its own position does not change any order value. -/
theorem reindex_self (fromOrder o : Int) :
    reindexOrder fromOrder fromOrder o = o := by
  unfold reindexOrder
  split_ifs <;> omega

/-- A reorder followed by the opposite reorder restores every order value:
`reindexOrder fromOrder toOrder` and `reindexOrder toOrder fromOrder` are
mutually inverse. -/
theorem reindex_reindex (fromOrder toOrder o : Int) :
    reindexOrder toOrder fromOrder (reindexOrder fromOrder toOrder o) = o := by
  unfold reindexOrder
  split_ifs <;> omega

/-- With both endpoints inside `[0, N-1]`, `reindexOrder` stays inside
`[0, N-1]`. -/
theorem reindex_mem_range {N : Nat} {fromOrder toOrder o : Int}
    (hf : 0 ≤ fromOrder ∧ fromOrder < (N : Int))
    (ht : 0 ≤ toOrder ∧ toOrder < (N : Int))
    (ho : 0 ≤ o ∧ o < (N : Int)) :
    0 ≤ reindexOrder fromOrder toOrder o ∧
      reindexOrder fromOrder toOrder o < (N : Int) := by
  unfold reindexOrder
  split_ifs <;> omega

/-- One committed in-range reorder on a dense table commits, preserves
density, and leaves the id column unchanged. -/
theorem reorder_preserves_range {jobs : List Job} {N : Nat}
    (fromOrder toOrder : Int)
    (hex : ordersExactlyRange jobs N) (hid : (jobs.map Job.id).Nodup)
    (hf : 0 ≤ fromOrder ∧ fromOrder < (N : Int))
    (ht : 0 ≤ toOrder ∧ toOrder < (N : Int)) :
    (reorderJobsHandler false jobs fromOrder toOrder).resp = .ok true ∧
    ordersExactlyRange (reorderJobsHandler false jobs fromOrder toOrder).jobs N ∧
    (reorderJobsHandler false jobs fromOrder toOrder).jobs.map Job.id
      = jobs.map Job.id := by
  obtain ⟨hord, hbound, hsurj⟩ := hex
  have hmem : ∃ j ∈ jobs, j.order = fromOrder := by
    have hk : fromOrder.toNat < N := by omega
    have hmm := hsurj fromOrder.toNat hk
    rw [List.mem_map] at hmm
    obtain ⟨j, hj, hjo⟩ := hmm
    exact ⟨j, hj, by omega⟩
  obtain ⟨j0, hfind⟩ := find?_order_eq_some hmem
  rw [reorderJobsHandler_spec jobs fromOrder toOrder hid hord j0 hfind]
  have hinv : Function.LeftInverse (reindexOrder toOrder fromOrder)
      (reindexOrder fromOrder toOrder) := fun o => reindex_reindex fromOrder toOrder o
  have hmapord : (jobs.map fun j =>
        ({ j with order := reindexOrder fromOrder toOrder j.order } : Job)).map Job.order
      = (jobs.map Job.order).map (reindexOrder fromOrder toOrder) := by
    rw [List.map_map, List.map_map]
    rfl
  refine ⟨rfl, ⟨?_, ?_, ?_⟩, ?_⟩
  · show ((jobs.map fun j =>
        ({ j with order := reindexOrder fromOrder toOrder j.order } : Job)).map Job.order).Nodup
    rw [hmapord]
    exact hord.map hinv.injective
  · intro j' hj'
    rw [List.mem_map] at hj'
    obtain ⟨j, hj, rfl⟩ := hj'
    exact reindex_mem_range hf ht (hbound j hj)
  · intro k hk
    show (k : Int) ∈ (jobs.map fun j =>
        ({ j with order := reindexOrder fromOrder toOrder j.order } : Job)).map Job.order
    rw [hmapord, List.mem_map]
    refine ⟨reindexOrder toOrder fromOrder (k : Int), ?_, ?_⟩
    · have hkr : 0 ≤ (k : Int) ∧ (k : Int) < (N : Int) := by omega
      have hob := reindex_mem_range ht hf hkr
      have hmm := hsurj (reindexOrder toOrder fromOrder (k : Int)).toNat (by omega)
      have hcast : ((reindexOrder toOrder fromOrder (k : Int)).toNat : Int)
          = reindexOrder toOrder fromOrder (k : Int) := by omega
      rw [hcast] at hmm
      exact hmm
    · exact reindex_reindex toOrder fromOrder (k : Int)
  · show (jobs.map fun j =>
        ({ j with order := reindexOrder fromOrder toOrder j.order } : Job)).map Job.id
      = jobs.map Job.id
    rw [List.map_map]
    rfl

/-- C1: for a jobs table whose order values are exactly `{0,…,N-1}` (ids
duplicate-free, as Dexie's primary key guarantees), every sequence of reorder
requests with `fromOrder` and `toOrder` inside `[0, N-1]` and no injected
failure commits successfully, and afterwards the order values are again
exactly `{0,…,N-1}` — unique and contiguous, with no duplicates or gaps. -/
theorem C1_ordering_invariant (jobs : List Job) (N : Nat)
    (ops : List (Int × Int))
    (hid : (jobs.map Job.id).Nodup)
    (hex : ordersExactlyRange jobs N)
    (hops : ∀ op ∈ ops, (0 ≤ op.1 ∧ op.1 < (N : Int)) ∧
      (0 ≤ op.2 ∧ op.2 < (N : Int))) :
    ∃ final, CommitSeq jobs ops final ∧ ordersExactlyRange final N := by
  induction ops generalizing jobs with
  | nil => exact ⟨jobs, .nil jobs, hex⟩
  | cons op ops ih =>
    have hop := hops op (List.mem_cons_self op ops)
    obtain ⟨hresp, hex', hid'⟩ :=
      reorder_preserves_range op.1 op.2 hex hid hop.1 hop.2
    have hid2 :
        ((reorderJobsHandler false jobs op.1 op.2).jobs.map Job.id).Nodup := by
      rw [hid']
      exact hid
    obtain ⟨final, hseq, hfin⟩ := ih _ hid2 hex'
      fun op' h => hops op' (List.mem_cons_of_mem op h)
    exact ⟨final, .cons jobs op ops final hresp hseq, hfin⟩

/-- C1 witness: the invariant theorem applied to three concrete jobs and two
concrete in-range reorders. -/
theorem C1_witness :
    (threeJobs.map Job.id).Nodup ∧ ordersExactlyRange threeJobs 3 ∧
    (∀ op ∈ ([(0, 2), (2, 1)] : List (Int × Int)),
      (0 ≤ op.1 ∧ op.1 < (3 : Int)) ∧ (0 ≤ op.2 ∧ op.2 < (3 : Int))) ∧
    ∃ final, CommitSeq threeJobs [(0, 2), (2, 1)] final ∧
      ordersExactlyRange final 3 :=
  ⟨by decide, by decide, by decide,
    C1_ordering_invariant threeJobs 3 [(0, 2), (2, 1)] (by decide) (by decide)
      (by decide)⟩

/-- C3: a committed reorder on a dense `0..N-1` table maps every member's
order by `reindexOrder`: with `fromOrder > toOrder` exactly the members with
order in `[toOrder, fromOrder)` move up by one, with `fromOrder < toOrder`
exactly those in `(fromOrder, toOrder]` move down by one, the moved member
lands on `toOrder`, and every other member is unchanged. -/
theorem C3_shift_semantics (jobs : List Job) (N : Nat)
    (fromOrder toOrder : Int)
    (hid : (jobs.map Job.id).Nodup) (hex : ordersExactlyRange jobs N)
    (hf : 0 ≤ fromOrder ∧ fromOrder < (N : Int))
    (_ht : 0 ≤ toOrder ∧ toOrder < (N : Int)) :
    (reorderJobsHandler false jobs fromOrder toOrder).resp = .ok true ∧
    (reorderJobsHandler false jobs fromOrder toOrder).jobs
      = jobs.map fun j =>
          { j with order := reindexOrder fromOrder toOrder j.order } := by
  obtain ⟨j0, hfind⟩ := dense_find hex hf
  rw [reorderJobsHandler_spec jobs fromOrder toOrder hid hex.1 j0 hfind]
  exact ⟨rfl, rfl⟩

/-- C3 witness: ten jobs ordered 0–9; moving position 5 to position 2 sends
the members at 2, 3, 4 to 3, 4, 5, the moved member to 2, and fixes the
rest. -/
theorem C3_witness :
    (tenJobs.map Job.id).Nodup ∧ ordersExactlyRange tenJobs 10 ∧
    (reorderJobsHandler false tenJobs 5 2).resp = .ok true ∧
    (reorderJobsHandler false tenJobs 5 2).jobs =
      [wJob 0 0, wJob 1 1, wJob 2 3, wJob 3 4, wJob 4 5, wJob 5 2,
        wJob 6 6, wJob 7 7, wJob 8 8, wJob 9 9] :=
  ⟨by decide, by decide,
    (C3_shift_semantics tenJobs 10 5 2 (by decide) (by decide) (by decide)
      (by decide)).1,
    ((C3_shift_semantics tenJobs 10 5 2 (by decide) (by decide) (by decide)
      (by decide)).2).trans (by decide)⟩

/-- C4 (amended): the reorder handler performs no range validation; a
`fromOrder` matching no member — in particular any out-of-range `fromOrder`
on a dense table — is answered with 404 Not Found before any write, leaving
every order value unchanged.  An out-of-range `toOrder` is not rejected (see
the counterexample). -/
theorem C4_out_of_range_from (jobs : List Job) (N : Nat)
    (fromOrder toOrder : Int) (hex : ordersExactlyRange jobs N)
    (hf : fromOrder < 0 ∨ (N : Int) ≤ fromOrder) :
    reorderJobsHandler false jobs fromOrder toOrder
      = ⟨jobs, [], .notFound "Job not found"⟩ := by
  have hnone : jobs.find? (fun j => j.order == fromOrder) = none := by
    rw [List.find?_eq_none]
    intro j hj
    have hb := hex.2.1 j hj
    simp only [beq_iff_eq]
    omega
  unfold reorderJobsHandler
  rw [if_neg Bool.false_ne_true, hnone]

/-- C4 witness: the amended theorem applied to a dense two-job table with the
out-of-range `fromOrder = 5`. -/
theorem C4_witness :
    ordersExactlyRange twoJobs 2 ∧ ((5 : Int) < 0 ∨ ((2 : Nat) : Int) ≤ 5) ∧
    reorderJobsHandler false twoJobs 5 0
      = ⟨twoJobs, [], .notFound "Job not found"⟩ :=
  ⟨by decide, by decide,
    C4_out_of_range_from twoJobs 2 5 0 (by decide) (by decide)⟩

/-- C4 counterexample: on the dense two-job table (N = 2) a reorder with the
out-of-range `toOrder = 5` is not rejected as a validation error: it commits
with `{ success: true }`, emits two writes, and leaves the order values
`{5, 0}` — the invariant `{0, 1}` is destroyed. -/
theorem C4_counterexample :
    (reorderJobsHandler false twoJobs 0 5).resp = .ok true ∧
    (reorderJobsHandler false twoJobs 0 5).writes = [(1, 0), (0, 5)] ∧
    (reorderJobsHandler false twoJobs 0 5).jobs = [wJob 0 5, wJob 1 0] ∧
    ¬ ordersExactlyRange (reorderJobsHandler false twoJobs 0 5).jobs 2 := by
  decide

/-- C5 (amended): a committed reorder of a member onto its own position
leaves every member's order value (indeed the whole table) unchanged — but it
emits exactly one field write, rewriting the moved member's order to its
current value, rather than zero writes. -/
theorem C5_selfmove_writes (jobs : List Job) (N : Nat) (fromOrder : Int)
    (hid : (jobs.map Job.id).Nodup) (hex : ordersExactlyRange jobs N)
    (hf : 0 ≤ fromOrder ∧ fromOrder < (N : Int)) :
    ∃ j0, j0 ∈ jobs ∧ j0.order = fromOrder ∧
      reorderJobsHandler false jobs fromOrder fromOrder
        = ⟨jobs, [(j0.id, fromOrder)], .ok true⟩ := by
  obtain ⟨j0, hfind⟩ := dense_find hex hf
  refine ⟨j0, List.mem_of_find?_eq_some hfind, ?_, ?_⟩
  · have := List.find?_some hfind
    simpa using this
  · rw [reorderJobsHandler_spec jobs fromOrder fromOrder hid hex.1 j0 hfind]
    have hsw : reorderShiftWrites jobs fromOrder fromOrder = [] := by
      unfold reorderShiftWrites
      rw [if_neg (lt_irrefl fromOrder), List.map_eq_nil_iff, List.filter_eq_nil_iff]
      intro a _
      simp only [Bool.and_eq_true, decide_eq_true_eq, not_and]
      omega
    rw [hsw, List.nil_append]
    congr 1
    calc jobs.map (fun j =>
          ({ j with order := reindexOrder fromOrder fromOrder j.order } : Job))
        = jobs.map id := List.map_congr_left fun j _ => by
          rw [reindex_self]
          rfl
      _ = jobs := List.map_id jobs

/-- C5 witness: the amended theorem applied to a dense two-job table, moving
position 0 onto itself. -/
theorem C5_witness :
    (twoJobs.map Job.id).Nodup ∧ ordersExactlyRange twoJobs 2 ∧
    ∃ j0, j0 ∈ twoJobs ∧ j0.order = 0 ∧
      reorderJobsHandler false twoJobs 0 0
        = ⟨twoJobs, [(j0.id, 0)], .ok true⟩ :=
  ⟨by decide, by decide,
    C5_selfmove_writes twoJobs 2 0 (by decide) (by decide) (by decide)⟩

/-- C5 counterexample: a committed self-reorder on the dense two-job table
emits the write list `[(0, 0)]` — one field write, not zero — while leaving
the table unchanged. -/
theorem C5_counterexample :
    (reorderJobsHandler false twoJobs 0 0).writes = [(0, 0)] ∧
    (reorderJobsHandler false twoJobs 0 0).writes ≠ [] ∧
    (reorderJobsHandler false twoJobs 0 0).jobs = twoJobs := by
  decide

/-- A failing optimistic mutation restores the snapshot verbatim at its key,
touches no other key, and surfaces the error. -/
theorem runOptimisticMutation_rollback {κ α ε : Type} [DecidableEq κ]
    (cache : Cache κ α) (key : κ) (tf : Option α → Option α) (e : ε) :
    (runOptimisticMutation cache key tf (.error e)).1 = cache ∧
    (runOptimisticMutation cache key tf (.error e)).2 = .rolledBack e := by
  constructor
  · funext k
    show cacheSet (cacheSet cache key (tf (cache key))) key (cache key) k
      = cache k
    unfold cacheSet
    by_cases h : k = key
    · rw [if_pos h, h]
    · rw [if_neg h, if_neg h]
  · rfl

/-- C2: rollback correctness for the optimistic mutations of the pages
(`archiveMutation` of JobsPage, `stageMutation` of CandidateDetailPage): when
the single transport attempt fails and no other mutation interleaves, the
cache after rollback is value-for-value identical to the cache before the
optimistic application — every key, affected or not — and the error is
surfaced to the caller as the `rolledBack` outcome; the mutation consumes
exactly one transport outcome, so no automatic retry happens. -/
theorem C2_rollback_restores_cache
    (cache : Cache String (ListResponse Job)) (tab : String) (jid : Nat)
    (e : String) (ccache : Cache Nat CandidateDetail) (cid : Nat)
    (s : CandidateStage) (e2 : String) :
    ((runArchiveMutation cache tab jid (.error e)).1 = cache ∧
      (runArchiveMutation cache tab jid (.error e)).2 = .rolledBack e) ∧
    ((runStageMutation ccache cid s (.error e2)).1 = ccache ∧
      (runStageMutation ccache cid s (.error e2)).2 = .rolledBack e2) :=
  ⟨runOptimisticMutation_rollback cache tab (archiveTransform jid) e,
    runOptimisticMutation_rollback ccache cid (stageTransform s) e2⟩

/-- C6: when the injected failure fires, every write handler answers the 500
error before touching the store — the database is returned unchanged, and the
reorder handler emits no writes — while read handlers never produce the
injected failure; the injection fires exactly on a uniform sample below
7.5%. -/
theorem C6_error_injection (r : ℚ) (db : Db) (jbody : JobBody)
    (jid nid eid now : Nat) (ju : JobUpdates) (fromOrder toOrder : Int)
    (cid : Nat) (cu : CandidateUpdates) (cbody : CandidateBody)
    (abody : AssessmentBody) (au : AssessmentUpdates) (sbody : SubmitBody)
    (nbody : NoteBody) (status tags : Option String)
    (stage : Option CandidateStage) (page pageSize : Nat) :
    (shouldSimulateError r = true ↔ r < 75 / 1000) ∧
    createJobHandler true db jbody nid now
      = (db, .simulatedError "Failed to create job. Please try again.") ∧
    updateJobHandler true db jid ju now
      = (db, .simulatedError "Failed to update job. Please try again.") ∧
    reorderJobsHandler true db.jobs fromOrder toOrder
      = ⟨db.jobs, [],
          .simulatedError "Failed to reorder jobs. Please try again."⟩ ∧
    updateCandidateHandler true db cid cu eid now
      = (db, .simulatedError "Failed to update candidate. Please try again.") ∧
    createCandidateHandler true db cbody nid eid now
      = (db, .simulatedError "Failed to create candidate. Please try again.") ∧
    createAssessmentHandler true db abody nid now
      = (db, .simulatedError "Failed to create assessment. Please try again.") ∧
    updateAssessmentHandler true db nid au now
      = (db, .simulatedError "Failed to update assessment. Please try again.") ∧
    submitAssessmentHandler true db sbody nid now
      = (db, .simulatedError "Failed to submit assessment. Please try again.") ∧
    createNoteHandler true db nbody nid eid now
      = (db, .simulatedError "Failed to create note. Please try again.") ∧
    (listJobsHandler db status tags page pageSize).isSimulatedError = false ∧
    (getJobHandler db jid).isSimulatedError = false ∧
    (searchCandidatesHandler db stage page).isSimulatedError = false ∧
    (getCandidateHandler db cid).isSimulatedError = false ∧
    (getTimelineHandler db cid).isSimulatedError = false ∧
    (getAssessmentsByJobHandler db jid).isSimulatedError = false ∧
    (getAssessmentHandler db nid).isSimulatedError = false ∧
    (getNotesHandler db cid).isSimulatedError = false := by
  refine ⟨?_, rfl, rfl, rfl, rfl, rfl, rfl, rfl, rfl, rfl, rfl, ?_, rfl, ?_,
    rfl, rfl, ?_, rfl⟩
  · exact decide_eq_true_iff
  · unfold getJobHandler
    cases db.jobs.find? fun j => j.id == jid <;> rfl
  · unfold getCandidateHandler
    cases db.candidates.find? fun c => c.id == cid <;> rfl
  · unfold getAssessmentHandler
    cases db.assessments.find? fun a => a.id == nid <;> rfl

/-- C8 (amended): only the jobs list response carries all of `total`, `page`
and `pageSize`; the candidate search response carries `data` and `total`
only; the timeline, notes-by-candidate and assessments-by-job responses carry
only `data`. -/
theorem C8_list_response_shapes (db : Db) (status tags : Option String)
    (page pageSize : Nat) (stage : Option CandidateStage) (cid jid : Nat) :
    ((listJobsHandler db status tags page pageSize).getOk.total.isSome = true ∧
      (listJobsHandler db status tags page pageSize).getOk.page = some page ∧
      (listJobsHandler db status tags page pageSize).getOk.pageSize
        = some pageSize) ∧
    ((searchCandidatesHandler db stage page).getOk.total.isSome = true ∧
      (searchCandidatesHandler db stage page).getOk.page = none ∧
      (searchCandidatesHandler db stage page).getOk.pageSize = none) ∧
    ((getTimelineHandler db cid).getOk.total = none ∧
      (getTimelineHandler db cid).getOk.page = none ∧
      (getTimelineHandler db cid).getOk.pageSize = none) ∧
    ((getNotesHandler db cid).getOk.total = none ∧
      (getNotesHandler db cid).getOk.page = none ∧
      (getNotesHandler db cid).getOk.pageSize = none) ∧
    ((getAssessmentsByJobHandler db jid).getOk.total = none ∧
      (getAssessmentsByJobHandler db jid).getOk.page = none ∧
      (getAssessmentsByJobHandler db jid).getOk.pageSize = none) :=
  ⟨⟨rfl, rfl, rfl⟩, ⟨rfl, rfl, rfl⟩, ⟨rfl, rfl, rfl⟩, ⟨rfl, rfl, rfl⟩,
    ⟨rfl, rfl, rfl⟩⟩

/-- C8 counterexample: at a concrete input, the candidate-search response
carries no `page` and no `pageSize`, and the timeline response carries only
`data` — so not every list endpoint returns the full
`{data, total, page, pageSize}` shape. -/
theorem C8_counterexample :
    searchCandidatesHandler emptyDb none 1 = .ok ⟨[], some 0, none, none⟩ ∧
    (⟨[], some 0, none, none⟩ : ListResponse Candidate).page.isSome = false ∧
    getTimelineHandler emptyDb 0 = .ok ⟨[], none, none, none⟩ := by
  refine ⟨by decide, rfl, by decide⟩

/-- `find?` skips a prefix in which nothing matches. -/
theorem find?_append_of_none {α : Type} {p : α → Bool} {l1 l2 : List α}
    (h : l1.find? p = none) : (l1 ++ l2).find? p = l2.find? p := by
  induction l1 with
  | nil => rfl
  | cons a l ih =>
    by_cases hpa : p a = true
    · rw [List.find?_cons_of_pos _ hpa] at h
      exact absurd h (by simp)
    · rw [List.find?_cons_of_neg _ (by simpa using hpa)] at h
      rw [List.cons_append, List.find?_cons_of_neg _ (by simpa using hpa)]
      exact ih h

/-- C7 (amended): `create` followed by `get` on the returned id yields the
supplied field values, differing only in the generated id and timestamp
fields — except that for candidates the handler additionally overrides the
`stage` field to `applied` (and generates `appliedAt`), regardless of any
supplied stage. -/
theorem C7_roundtrip (db : Db) (jbody : JobBody) (cbody : CandidateBody)
    (nid eid now : Nat)
    (hjfresh : ∀ j ∈ db.jobs, j.id ≠ nid)
    (hcfresh : ∀ c ∈ db.candidates, c.id ≠ nid) :
    getJobHandler (createJobHandler false db jbody nid now).1 nid
      = .ok ⟨nid, jbody.title, jbody.status, jbody.tags, jbody.order,
          now, now⟩ ∧
    getCandidateHandler (createCandidateHandler false db cbody nid eid now).1
        nid
      = .ok ⟨nid, cbody.name, cbody.email, cbody.jobId, .applied, now, now⟩ := by
  constructor
  · have h1 : db.jobs.find? (fun j => j.id == nid) = none := by
      rw [List.find?_eq_none]
      intro j hj
      simpa using hjfresh j hj
    have h2 : (createJobHandler false db jbody nid now).1.jobs
        = db.jobs ++ [⟨nid, jbody.title, jbody.status, jbody.tags,
            jbody.order, now, now⟩] := rfl
    unfold getJobHandler
    rw [h2, find?_append_of_none h1, List.find?_cons_of_pos _ (by simp)]
  · have h1 : db.candidates.find? (fun c => c.id == nid) = none := by
      rw [List.find?_eq_none]
      intro c hc
      simpa using hcfresh c hc
    have h2 : (createCandidateHandler false db cbody nid eid now).1.candidates
        = db.candidates ++ [⟨nid, cbody.name, cbody.email, cbody.jobId,
            .applied, now, now⟩] := rfl
    unfold getCandidateHandler
    rw [h2, find?_append_of_none h1, List.find?_cons_of_pos _ (by simp)]

/-- C7 witness: the amended round-trip applied to an empty database with a
concrete job body and a concrete candidate body. -/
theorem C7_witness :
    (∀ j ∈ emptyDb.jobs, j.id ≠ 4) ∧ (∀ c ∈ emptyDb.candidates, c.id ≠ 4) ∧
    getJobHandler
        (createJobHandler false emptyDb ⟨"Dev", "active", ["remote"], 0⟩ 4 9).1
        4
      = .ok ⟨4, "Dev", "active", ["remote"], 0, 9, 9⟩ ∧
    getCandidateHandler
        (createCandidateHandler false emptyDb cexCandBody 4 5 9).1 4
      = .ok ⟨4, "Bob", "bob@example.com", 3, .applied, 9, 9⟩ :=
  ⟨by decide, by decide,
    (C7_roundtrip emptyDb ⟨"Dev", "active", ["remote"], 0⟩ cexCandBody 4 5 9
      (by decide) (by decide)).1,
    (C7_roundtrip emptyDb ⟨"Dev", "active", ["remote"], 0⟩ cexCandBody 4 5 9
      (by decide) (by decide)).2⟩

/-- C7 counterexample: the candidate round-trip does not preserve the
supplied `stage` field — the body supplies `tech`, yet the stored and
returned candidate carries `applied`, and `stage` is neither an id nor a
timestamp field. -/
theorem C7_counterexample :
    cexCandBody.stage = .tech ∧
    getCandidateHandler
        (createCandidateHandler false emptyDb cexCandBody 0 1 5).1 0
      = .ok ⟨0, "Bob", "bob@example.com", 3, .applied, 5, 5⟩ ∧
    CandidateStage.applied ≠ CandidateStage.tech := by
  decide

/-- An id-preserving per-record rewrite commutes with `find?` by id. -/
theorem find?_map_preserving (cands : List Candidate) (cid : Nat)
    (g : Candidate → Candidate) (hgid : ∀ c, (g c).id = c.id) :
    (cands.map g).find? (fun c => c.id == cid)
      = (cands.find? fun c => c.id == cid).map g := by
  induction cands with
  | nil => rfl
  | cons c cs ih =>
    simp only [List.map_cons, List.find?_cons, hgid]
    cases h : c.id == cid
    · exact ih
    · rfl

/-- One committed stage mutation on an existing candidate: the timeline gains
the `stage_change` event and the candidate row is rewritten in place. -/
theorem updateCandidate_stage_commit (db : Db) (cid : Nat) (c : Candidate)
    (s : CandidateStage) (eid t : Nat)
    (hfind : db.candidates.find? (fun x => x.id == cid) = some c)
    (hne : s ≠ c.stage) :
    updateCandidateHandler false db cid ⟨some s⟩ eid t
      = ({ db with
            timeline := db.timeline ++
              [⟨eid, cid, .stage_change,
                "Moved from " ++ c.stage.toText ++ " to " ++ s.toText,
                some c.stage, some s, t⟩],
            candidates := db.candidates.map fun x =>
              if x.id = cid then applyCandidateUpdates ⟨some s⟩ t x else x },
          .ok (some (applyCandidateUpdates ⟨some s⟩ t c))) := by
  have hcid : c.id = cid := by
    have := List.find?_some hfind
    simpa using this
  have hgid : ∀ x : Candidate,
      ((if x.id = cid then applyCandidateUpdates ⟨some s⟩ t x else x)).id
        = x.id := by
    intro x
    split
    · rfl
    · rfl
  unfold updateCandidateHandler
  rw [if_neg Bool.false_ne_true, hfind]
  dsimp only
  rw [if_pos hne]
  rw [find?_map_preserving db.candidates cid _ hgid, hfind]
  dsimp only [Option.map_some']
  rw [if_pos hcid]

/-- C9: starting from a candidate in stage `applied`, two committed
sequential stage mutations applied→screen then screen→tech append exactly
two timeline entries for that candidate, with fromStage/toStage pairs
(applied, screen) and (screen, tech) and with the two clock readings as
`createdAt`; since the mutations are sequential the clock has advanced
(`t1 < t2`), so the timestamps are strictly increasing. -/
theorem C9_sequential_stage_mutations (db : Db) (cid : Nat) (c : Candidate)
    (e1 e2 t1 t2 : Nat)
    (hfind : db.candidates.find? (fun x => x.id == cid) = some c)
    (hstage : c.stage = .applied)
    (ht : t1 < t2) :
    (updateCandidateHandler false
        (updateCandidateHandler false db cid ⟨some .screen⟩ e1 t1).1
        cid ⟨some .tech⟩ e2 t2).1.timeline
      = db.timeline ++
        [⟨e1, cid, .stage_change, "Moved from applied to screen",
          some .applied, some .screen, t1⟩,
          ⟨e2, cid, .stage_change, "Moved from screen to tech",
          some .screen, some .tech, t2⟩] ∧
    (⟨e1, cid, .stage_change, "Moved from applied to screen", some .applied,
      some .screen, t1⟩ : TimelineEvent).createdAt
      < (⟨e2, cid, .stage_change, "Moved from screen to tech", some .screen,
        some .tech, t2⟩ : TimelineEvent).createdAt := by
  refine ⟨?_, ht⟩
  have hne1 : CandidateStage.screen ≠ c.stage := by
    rw [hstage]
    exact fun h => CandidateStage.noConfusion h
  have step1 := updateCandidate_stage_commit db cid c .screen e1 t1 hfind hne1
  rw [step1]
  have hgid : ∀ x : Candidate,
      ((if x.id = cid then
          applyCandidateUpdates ⟨some .screen⟩ t1 x else x)).id = x.id := by
    intro x
    split
    · rfl
    · rfl
  have hcid : c.id = cid := by
    have := List.find?_some hfind
    simpa using this
  have hfind2 : ({ db with
      timeline := db.timeline ++
        [⟨e1, cid, .stage_change,
          "Moved from " ++ c.stage.toText ++ " to "
            ++ CandidateStage.screen.toText,
          some c.stage, some .screen, t1⟩],
      candidates := db.candidates.map fun x =>
        if x.id = cid then applyCandidateUpdates ⟨some .screen⟩ t1 x
        else x } : Db).candidates.find? (fun x => x.id == cid)
      = some (applyCandidateUpdates ⟨some .screen⟩ t1 c) := by
    show (db.candidates.map fun x =>
        if x.id = cid then applyCandidateUpdates ⟨some .screen⟩ t1 x
        else x).find? (fun x => x.id == cid) = _
    rw [find?_map_preserving db.candidates cid _ hgid, hfind]
    dsimp only [Option.map_some']
    rw [if_pos hcid]
  have hne2 : CandidateStage.tech
      ≠ (applyCandidateUpdates ⟨some .screen⟩ t1 c).stage :=
    fun h => CandidateStage.noConfusion h
  have step2 := updateCandidate_stage_commit _ cid
    (applyCandidateUpdates ⟨some .screen⟩ t1 c) .tech e2 t2 hfind2 hne2
  rw [step2]
  show (db.timeline ++ [_]) ++ [_] = _
  rw [List.append_assoc]
  rw [hstage]
  rfl

/-- C9 witness: the sequential stage mutations applied to a one-candidate
database with clocks 1 and 2. -/
theorem C9_witness :
    dbWithCand.candidates.find? (fun x => x.id == 0) = some wCand ∧
    wCand.stage = .applied ∧ (1 : Nat) < 2 ∧
    (updateCandidateHandler false
        (updateCandidateHandler false dbWithCand 0 ⟨some .screen⟩ 10 1).1
        0 ⟨some .tech⟩ 11 2).1.timeline
      = [⟨10, 0, .stage_change, "Moved from applied to screen",
          some .applied, some .screen, 1⟩,
          ⟨11, 0, .stage_change, "Moved from screen to tech",
          some .screen, some .tech, 2⟩] :=
  ⟨by decide, by decide, by decide,
    ((C9_sequential_stage_mutations dbWithCand 0 wCand 10 11 1 2 (by decide)
      (by decide) (by decide)).1).trans (by decide)⟩

/-- C10: candidate creation stores the candidate with stage `applied` no
matter what stage the body supplies, and appends exactly one `stage_change`
timeline event with `toStage` `applied` for the newly created candidate. -/
theorem C10_create_forces_applied (db : Db) (body : CandidateBody)
    (nid eid now : Nat) :
    (createCandidateHandler false db body nid eid now).1.candidates
      = db.candidates ++
        [⟨nid, body.name, body.email, body.jobId, .applied, now, now⟩] ∧
    (createCandidateHandler false db body nid eid now).1.timeline
      = db.timeline ++
        [⟨eid, nid, .stage_change, "Application submitted", none,
          some .applied, now⟩] ∧
    (createCandidateHandler false db body nid eid now).2
      = .ok ⟨nid, body.name, body.email, body.jobId, .applied, now, now⟩ :=
  ⟨rfl, rfl, rfl⟩

end TalentFlow


